import Mathlib

/-
Verification development for the mtproto scheme codec (src/mtproto/scheme.py).

Modelling conventions:
* A wire buffer (Python bytes) is a `List Nat`, each entry a byte value below 256.
* Python struct format strings are translated field by field in NATIVE mode
  (the source never uses a byte-order character): integers are little-endian
  and each field is aligned to its size within the format, with zero pad
  bytes inserted on packing.  In particular the formats Iq, Iqi, Iqii and
  Iqi%ds place 4 zero pad bytes after the leading 4-byte magic so that the
  8-byte q field is 8-aligned, and struct.calcsize counts those pad bytes.
* struct.unpack_from on a buffer shorter than the format needs raises
  struct.error; this is the `Err.truncated` case.  struct.pack with an
  out-of-range integer, a bad format count, or a wrong number of arguments
  also raises struct.error; this is the `Err.packError` case.
* Fallible operations return `Except Err α`.
-/

/-- Failure cases of the codec, mirroring the exceptions the Python code raises. -/
inductive Err where
  /-- scheme.IncorrectMagicNumberError: a known type saw a foreign magic. -/
  | incorrectMagic
  /-- NotImplementedError(hex(magic)) from the module-level deserialize:
      no decoder is registered for the observed magic number. -/
  | unknownType (magic : Nat)
  /-- bare NotImplementedError (TLClientDHInnerData.deserialize). -/
  | notImplemented
  /-- struct.error from unpack_from reading past the end of the buffer. -/
  | truncated
  /-- struct.error at pack time (bad value, bad format, wrong argument count). -/
  | packError
  /-- AttributeError: calling .serialize() on a query field holding None. -/
  | attributeError
  /-- a length byte of 255, which no canonical byte-array encoding produces. -/
  | invalidLength
  /-- artificial bound on the recursion depth of the fuelled dispatcher. -/
  | outOfFuel
deriving DecidableEq

/-- Read the byte at index i (buffers are never indexed past a bounds check). -/
def byteAt (b : List Nat) (i : Nat) : Nat := b.getD i 0

/-- Value of 4 little-endian bytes at offset off (struct format I, unsigned). -/
def readU32val (b : List Nat) (off : Nat) : Nat :=
  byteAt b off + 256 * byteAt b (off + 1) + 65536 * byteAt b (off + 2) +
    16777216 * byteAt b (off + 3)

/-- struct.unpack_from of one I field: fails with struct.error when fewer
    than 4 bytes remain at off. -/
def readU32 (b : List Nat) (off : Nat) : Except Err Nat :=
  if off + 4 ≤ b.length then .ok (readU32val b off) else .error .truncated

/-- Value of 8 little-endian bytes at offset off (unsigned). -/
def readU64val (b : List Nat) (off : Nat) : Nat :=
  byteAt b off + 256 * byteAt b (off + 1) + 65536 * byteAt b (off + 2) +
    16777216 * byteAt b (off + 3) + 4294967296 * byteAt b (off + 4) +
    1099511627776 * byteAt b (off + 5) + 281474976710656 * byteAt b (off + 6) +
    72057594037927936 * byteAt b (off + 7)

/-- Two's-complement reading of an unsigned 32-bit value (struct format i). -/
def toSigned32 (u : Nat) : Int :=
  if u < 2147483648 then (u : Int) else (u : Int) - 4294967296

/-- Two's-complement reading of an unsigned 64-bit value (struct format q). -/
def toSigned64 (u : Nat) : Int :=
  if u < 9223372036854775808 then (u : Int) else (u : Int) - 18446744073709551616

/-- struct.unpack_from of one i field at off. -/
def readI32 (b : List Nat) (off : Nat) : Except Err Int :=
  if off + 4 ≤ b.length then .ok (toSigned32 (readU32val b off)) else .error .truncated

/-- struct.unpack_from of one q field at off. -/
def readI64 (b : List Nat) (off : Nat) : Except Err Int :=
  if off + 8 ≤ b.length then .ok (toSigned64 (readU64val b off)) else .error .truncated

/-- struct.unpack_from of an ns field: exactly n raw bytes at off. -/
def readBytes (b : List Nat) (off n : Nat) : Except Err (List Nat) :=
  if off + n ≤ b.length then .ok ((b.drop off).take n) else .error .truncated

/-- Little-endian bytes of an unsigned 32-bit value (struct format I). -/
def u32enc (n : Nat) : List Nat :=
  [n % 256, n / 256 % 256, n / 65536 % 256, n / 16777216 % 256]

/-- Little-endian bytes of an unsigned 64-bit value. -/
def u64enc (n : Nat) : List Nat :=
  [n % 256, n / 256 % 256, n / 65536 % 256, n / 16777216 % 256,
   n / 4294967296 % 256, n / 1099511627776 % 256, n / 281474976710656 % 256,
   n / 72057594037927936 % 256]

/-- Two's-complement little-endian bytes of a signed 32-bit value. -/
def i32enc (x : Int) : List Nat := u32enc (x % 4294967296).toNat

/-- Two's-complement little-endian bytes of a signed 64-bit value. -/
def i64enc (x : Int) : List Nat := u64enc (x % 18446744073709551616).toNat

/-- struct.pack of one I field: struct.error when out of unsigned 32-bit range. -/
def packU32 (n : Nat) : Except Err (List Nat) :=
  if n < 4294967296 then .ok (u32enc n) else .error .packError

/-- struct.pack of one i field: struct.error when out of signed 32-bit range. -/
def packI32 (x : Int) : Except Err (List Nat) :=
  if -2147483648 ≤ x ∧ x < 2147483648 then .ok (i32enc x) else .error .packError

/-- struct.pack of one q field: struct.error when out of signed 64-bit range. -/
def packI64 (x : Int) : Except Err (List Nat) :=
  if -9223372036854775808 ≤ x ∧ x < 9223372036854775808 then .ok (i64enc x)
  else .error .packError

/-- The 4 zero pad bytes struct inserts, in native mode, between a 4-byte
    magic and a following 8-aligned q field (formats Iq, Iqi, Iqii, ...). -/
def qpad : List Nat := [0, 0, 0, 0]

/-- Zero pad bytes aligning position cur to a multiple of a (struct native mode). -/
def alignPad (cur a : Nat) : List Nat := List.replicate ((a - cur % a) % a) 0

/-- struct.pack of an ns field: the argument is truncated, or padded on the
    right with zero bytes, to exactly n bytes. -/
def padTrunc (s : List Nat) (n : Nat) : List Nat :=
  s.take n ++ List.replicate (n - s.length) 0

/-- Python slice b[start:stop] for a non-negative start and an arbitrary
    (possibly negative) stop: a negative stop counts from the end, and both
    ends clamp to the buffer instead of failing. -/
def pySlice (b : List Nat) (start : Nat) (stop : Int) : List Nat :=
  let stopN : Nat := if stop < 0 then (b.length + stop).toNat else stop.toNat
  (b.take stopN).drop start

/-- The repeated magic-check idiom: unpack_from('I') at off and compare with
    the class MAGIC, raising IncorrectMagicNumberError on mismatch. -/
def checkMagic (expected : Nat) (b : List Nat) (off : Nat) : Except Err Unit := do
  let m ← readU32 b off
  if m = expected then pure () else .error .incorrectMagic

def TLMessage.MAGIC : Nat := 0x5bb8e511

/-- In-memory state of a TLMessage object after a successful deserialize
    (msg_id, segno, bytes are the fields set from the qii group; body is the
    slice the source stores). -/
structure TLMessageState where
  msg_id : Int
  segno : Int
  bytes : Int
  body : List Nat
deriving DecidableEq

/-- TLMessage.deserialize: magic at off, then unpack_from('qii') at off+4
    (q at off+4, i at off+12, i at off+16), then
    body = buffer[20:20 + self.bytes] — the source slices at the absolute
    positions 20..20+bytes of the buffer, not at offset+20. -/
def TLMessage.deserialize (b : List Nat) (off : Nat) : Except Err TLMessageState := do
  let _ ← checkMagic TLMessage.MAGIC b off
  let msg_id ← readI64 b (off + 4)
  let segno ← readI32 b (off + 12)
  let bytes ← readI32 b (off + 16)
  pure { msg_id := msg_id, segno := segno, bytes := bytes,
         body := pySlice b 20 (20 + bytes) }

/-- TLMessage.serialize: struct.pack('Iqii%ds' % self.bytes, MAGIC, msg_id,
    segno, bytes, body).  Native alignment puts 4 zero pad bytes after the
    magic; the s count pads or truncates the body to exactly bytes bytes; a
    negative bytes yields a malformed format string (struct.error).
    (The source initialises body to None, in which case pack would raise a
    TypeError; states here model byte-string bodies.) -/
def TLMessage.serialize (m : TLMessageState) : Except Err (List Nat) :=
  if m.bytes < 0 then .error .packError
  else do
    let idb ← packI64 m.msg_id
    let sb ← packI32 m.segno
    let bb ← packI32 m.bytes
    pure (u32enc TLMessage.MAGIC ++ qpad ++ idb ++ sb ++ bb ++
          padTrunc m.body m.bytes.toNat)

/-- TLMessage.serialized_size: struct.calcsize('Iqii%ds' % self.bytes), which
    is 24 + bytes in native mode (4 magic + 4 pad + 8 + 4 + 4 + bytes);
    a negative bytes makes the format string malformed. -/
def TLMessage.serialized_size (bytes : Int) : Except Err Nat :=
  if bytes < 0 then .error .packError else .ok (24 + bytes.toNat)

/-- Modelled from the spec: class MTByteArray (file mtproto/mtbytearray.py) is
    imported by scheme.py but its source is not part of this repository; spec
    section 4.1 defines the Variable-Length Byte Field codec it implements.
    Decode at off: one length byte n below 254 followed by n payload bytes, or
    the marker byte 254 followed by a 3-byte little-endian length and that many
    payload bytes; reading past the end of the buffer is a truncation failure.
    A leading byte of 255 is produced by no canonical encoder. -/
def MTByteArray.deserialize (b : List Nat) (off : Nat) : Except Err (List Nat) :=
  if off + 1 ≤ b.length then
    let L := byteAt b off
    if L < 254 then
      if off + 1 + L ≤ b.length then .ok ((b.drop (off + 1)).take L)
      else .error .truncated
    else if L = 254 then
      if off + 4 ≤ b.length then
        let n := byteAt b (off + 1) + 256 * byteAt b (off + 2) +
                 65536 * byteAt b (off + 3)
        if off + 4 + n ≤ b.length then .ok ((b.drop (off + 4)).take n)
        else .error .truncated
      else .error .truncated
    else .error .invalidLength
  else .error .truncated

/-- Modelled from the spec: total encoded length of a Variable-Length Byte
    Field holding data (length prefix plus payload, zero-padded to the next
    multiple of 4). -/
def MTByteArray.serialized_size (data : List Nat) : Nat :=
  if data.length < 254 then (1 + data.length + 3) / 4 * 4
  else (4 + data.length + 3) / 4 * 4

/-- Modelled from the spec: canonical encoding of a Variable-Length Byte Field
    (short form below 254, long form otherwise; the 3-byte length bounds the
    representable payload). -/
def MTByteArray.serialize (data : List Nat) : Except Err (List Nat) :=
  let n := data.length
  if n < 254 then
    .ok ([n] ++ data ++ List.replicate (MTByteArray.serialized_size data - (1 + n)) 0)
  else if n < 16777216 then
    .ok ([254, n % 256, n / 256 % 256, n / 65536 % 256] ++ data ++
         List.replicate (MTByteArray.serialized_size data - (4 + n)) 0)
  else .error .packError

def TLVector.MAGIC : Nat := 0x1cb5c415

/-- unpack_from('%dq' % count, buffer, offset): count consecutive q fields. -/
def readI64s (b : List Nat) (off : Nat) : Nat → Except Err (List Int)
  | 0 => .ok []
  | n + 1 => do
    let v ← readI64 b off
    let rest ← readI64s b (off + 8) n
    .ok (v :: rest)

/-- pack('%dq', *values): the concatenated q encodings. -/
def i64encs : List Int → List Nat
  | [] => []
  | v :: vs => i64enc v ++ i64encs vs

/-- pack of count consecutive q fields with range checking. -/
def packI64s : List Int → Except Err (List Nat)
  | [] => .ok []
  | v :: vs => do
    let hd ← packI64 v
    let tl ← packI64s vs
    .ok (hd ++ tl)

/-- TLVector.deserialize: magic at off, count ('I') at off+4, then
    unpack_from('%dq' % count) at off+8. -/
def TLVector.deserialize (b : List Nat) (off : Nat) : Except Err (List Int) := do
  let _ ← checkMagic TLVector.MAGIC b off
  let count ← readU32 b (off + 4)
  readI64s b (off + 8) count

/-- TLVector.serialize: struct.pack('II%dq' % count, MAGIC, count, *values);
    in native mode II%dq has no pad bytes (the q group starts 8-aligned). -/
def TLVector.serialize (values : List Int) : Except Err (List Nat) := do
  let cb ← packU32 values.length
  let vb ← packI64s values
  pure (u32enc TLVector.MAGIC ++ cb ++ vb)

/-- TLVector.serialized_size: struct.calcsize('II%dq' % count) = 8 + 8*count. -/
def TLVector.serialized_size (values : List Int) : Nat := 8 + 8 * values.length

def TLMsgsAck.MAGIC : Nat := 0x62d6b459

/-- TLMsgsAck.deserialize: magic at off, then msg_ids = TLVector(buffer, offset+4). -/
def TLMsgsAck.deserialize (b : List Nat) (off : Nat) : Except Err (List Int) := do
  let _ ← checkMagic TLMsgsAck.MAGIC b off
  TLVector.deserialize b (off + 4)

/-- TLMsgsAck.serialize: pack('I%ds' % len(vec), MAGIC, vec). -/
def TLMsgsAck.serialize (msg_ids : List Int) : Except Err (List Nat) := do
  let vec ← TLVector.serialize msg_ids
  pure (u32enc TLMsgsAck.MAGIC ++ vec)

def TLMsgContainer.MAGIC : Nat := 0x73f1f8dc

/-- The body of TLMsgContainer.deserialize's loop: decode count messages,
    appending each to self.messages and advancing the cursor by the decoded
    message's serialized_size.  The returned pair is the final state of
    self.messages together with the exception, if any, that aborted the loop
    (messages appended before the failure are retained, as in the source). -/
def TLMsgContainer.deserializeLoop (b : List Nat) :
    Nat → Nat → List TLMessageState → List TLMessageState × Option Err
  | 0, _, msgs => (msgs, none)
  | n + 1, off, msgs =>
    match TLMessage.deserialize b off with
    | .error e => (msgs, some e)
    | .ok m =>
      match TLMessage.serialized_size m.bytes with
      | .error e => (msgs ++ [m], some e)
      | .ok sz => TLMsgContainer.deserializeLoop b n (off + sz) (msgs ++ [m])

/-- The first two reads of TLMsgContainer.deserialize: the magic check at
    off and the count ('I') at off+4. -/
def TLMsgContainer.readHeader (b : List Nat) (off : Nat) : Except Err Nat := do
  let _ ← checkMagic TLMsgContainer.MAGIC b off
  readU32 b (off + 4)

/-- TLMsgContainer.deserialize: magic at off, count at off+4, then the loop
    starting at off+8.  msgs is the value of self.messages on entry; the
    method appends to it and never clears it. -/
def TLMsgContainer.deserialize (b : List Nat) (off : Nat)
    (msgs : List TLMessageState) : List TLMessageState × Option Err :=
  match TLMsgContainer.readHeader b off with
  | .error e => (msgs, some e)
  | .ok count => TLMsgContainer.deserializeLoop b count (off + 8) msgs

/-- bytes().join([msg.serialize() for msg in self.messages]). -/
def TLMsgContainer.serializeMsgs : List TLMessageState → Except Err (List Nat)
  | [] => .ok []
  | m :: ms => do
    let s ← TLMessage.serialize m
    let rest ← TLMsgContainer.serializeMsgs ms
    .ok (s ++ rest)

/-- TLMsgContainer.serialize: pack('II%ds' % len(msgs), MAGIC,
    len(self.messages), msgs). -/
def TLMsgContainer.serialize (msgs : List TLMessageState) : Except Err (List Nat) := do
  let body ← TLMsgContainer.serializeMsgs msgs
  let cb ← packU32 msgs.length
  pure (u32enc TLMsgContainer.MAGIC ++ cb ++ body)

def TLMsgResendReq.MAGIC : Nat := 0x7d861a08

/-- TLMsgResendReq.deserialize: magic, then msg_ids = TLVector(buffer, offset+4). -/
def TLMsgResendReq.deserialize (b : List Nat) (off : Nat) : Except Err (List Int) := do
  let _ ← checkMagic TLMsgResendReq.MAGIC b off
  TLVector.deserialize b (off + 4)

/-- TLMsgResendReq.serialize: pack('I%ds' % len(vec), MAGIC, vec). -/
def TLMsgResendReq.serialize (msg_ids : List Int) : Except Err (List Nat) := do
  let vec ← TLVector.serialize msg_ids
  pure (u32enc TLMsgResendReq.MAGIC ++ vec)

def TLRpcError.MAGIC : Nat := 0x2144ca19

/-- TLRpcError.deserialize: magic, error_code ('i') at off+4, error_message
    (byte array) at off+8. -/
def TLRpcError.deserialize (b : List Nat) (off : Nat) :
    Except Err (Int × List Nat) := do
  let _ ← checkMagic TLRpcError.MAGIC b off
  let code ← readI32 b (off + 4)
  let msg ← MTByteArray.deserialize b (off + 8)
  pure (code, msg)

/-- TLRpcError.serialize: pack('Ii%ds' % len(s), MAGIC, error_code, s). -/
def TLRpcError.serialize (error_code : Int) (error_message : List Nat) :
    Except Err (List Nat) := do
  let s ← MTByteArray.serialize error_message
  let cb ← packI32 error_code
  pure (u32enc TLRpcError.MAGIC ++ cb ++ s)

def TLRpcReqError.MAGIC : Nat := 0x7ae432f5

/-- TLRpcReqError.deserialize: magic, unpack_from('qi') at off+4 (q at off+4,
    i at off+12), then self.error_message.deserialize(buffer, offset) — the
    source decodes the message at the start of the record, offset, rather
    than past the fixed fields. -/
def TLRpcReqError.deserialize (b : List Nat) (off : Nat) :
    Except Err (Int × Int × List Nat) := do
  let _ ← checkMagic TLRpcReqError.MAGIC b off
  let query_id ← readI64 b (off + 4)
  let code ← readI32 b (off + 12)
  let msg ← MTByteArray.deserialize b off
  pure (query_id, code, msg)

/-- TLRpcReqError.serialize: pack('Iqi%ds' % len(error_b), MAGIC, query_id,
    error_code, error_b); native alignment pads 4 bytes after the magic. -/
def TLRpcReqError.serialize (query_id error_code : Int)
    (error_message : List Nat) : Except Err (List Nat) := do
  let eb ← MTByteArray.serialize error_message
  let qb ← packI64 query_id
  let cb ← packI32 error_code
  pure (u32enc TLRpcReqError.MAGIC ++ qpad ++ qb ++ cb ++ eb)

def TLClientDHInnerData.MAGIC : Nat := 0x6643b654

def TLServerDHInnerData.MAGIC : Nat := 0xb5890dba

/-- TLServerDHInnerData.deserialize: magic, unpack_from('16s16sI') at off+4,
    then the two byte arrays and a final 'i'.  (The source assigns the final
    unpack_from result without unpacking the 1-tuple — server_time is stored
    as a tuple; the contained integer is modelled here.) -/
def TLServerDHInnerData.deserialize (b : List Nat) (off : Nat) :
    Except Err (List Nat × List Nat × Nat × List Nat × List Nat × Int) := do
  let _ ← checkMagic TLServerDHInnerData.MAGIC b off
  let nonce ← readBytes b (off + 4) 16
  let server_nonce ← readBytes b (off + 20) 16
  let g ← readU32 b (off + 36)
  let dh_prime ← MTByteArray.deserialize b (off + 40)
  let o1 := off + 40 + MTByteArray.serialized_size dh_prime
  let g_a ← MTByteArray.deserialize b o1
  let o2 := o1 + MTByteArray.serialized_size g_a
  let server_time ← readI32 b o2
  pure (nonce, server_nonce, g, dh_prime, g_a, server_time)

def TLReqPQ.MAGIC : Nat := 0x60469778

/-- TLReqPQ.deserialize: magic, then unpack_from('16s') at off+4. -/
def TLReqPQ.deserialize (b : List Nat) (off : Nat) : Except Err (List Nat) := do
  let _ ← checkMagic TLReqPQ.MAGIC b off
  readBytes b (off + 4) 16

def TLReqDHParams.MAGIC : Nat := 0xd712e4be

/-- TLReqDHParams.deserialize: magic, '16s16s' at off+4, byte arrays p and q,
    a q field, then the encrypted_data byte array. -/
def TLReqDHParams.deserialize (b : List Nat) (off : Nat) :
    Except Err (List Nat × List Nat × List Nat × List Nat × Int × List Nat) := do
  let _ ← checkMagic TLReqDHParams.MAGIC b off
  let nonce ← readBytes b (off + 4) 16
  let server_nonce ← readBytes b (off + 20) 16
  let p ← MTByteArray.deserialize b (off + 36)
  let o1 := off + 36 + MTByteArray.serialized_size p
  let q ← MTByteArray.deserialize b o1
  let o2 := o1 + MTByteArray.serialized_size q
  let fingerprint ← readI64 b o2
  let encrypted_data ← MTByteArray.deserialize b (o2 + 8)
  pure (nonce, server_nonce, p, q, fingerprint, encrypted_data)

def TLSetClientDHParams.MAGIC : Nat := 0xf5045f1f

/-- TLSetClientDHParams.deserialize: magic, '16s16s' at off+4, encrypted_data
    at off+36. -/
def TLSetClientDHParams.deserialize (b : List Nat) (off : Nat) :
    Except Err (List Nat × List Nat × List Nat) := do
  let _ ← checkMagic TLSetClientDHParams.MAGIC b off
  let nonce ← readBytes b (off + 4) 16
  let server_nonce ← readBytes b (off + 20) 16
  let encrypted_data ← MTByteArray.deserialize b (off + 36)
  pure (nonce, server_nonce, encrypted_data)

def TLRpcDropAnswer.MAGIC : Nat := 0x58e4a740

/-- TLRpcDropAnswer.deserialize: magic, then req_msg_id ('q') at off+4. -/
def TLRpcDropAnswer.deserialize (b : List Nat) (off : Nat) : Except Err Int := do
  let _ ← checkMagic TLRpcDropAnswer.MAGIC b off
  readI64 b (off + 4)

/-- TLRpcDropAnswer.serialize: pack('Iq', MAGIC, req_msg_id); native
    alignment pads 4 bytes after the magic (calcsize('Iq') = 16). -/
def TLRpcDropAnswer.serialize (req_msg_id : Int) : Except Err (List Nat) := do
  let rb ← packI64 req_msg_id
  pure (u32enc TLRpcDropAnswer.MAGIC ++ qpad ++ rb)

def TLGetFutureSalts.MAGIC : Nat := 0xb921bd04

/-- TLGetFutureSalts.deserialize: magic, then num ('i') at off+4. -/
def TLGetFutureSalts.deserialize (b : List Nat) (off : Nat) : Except Err Int := do
  let _ ← checkMagic TLGetFutureSalts.MAGIC b off
  readI32 b (off + 4)

/-- TLGetFutureSalts.serialize: pack('Ii', MAGIC, num). -/
def TLGetFutureSalts.serialize (num : Int) : Except Err (List Nat) := do
  let nb ← packI32 num
  pure (u32enc TLGetFutureSalts.MAGIC ++ nb)

def TLPing.MAGIC : Nat := 0x7abe77ec

/-- TLPing.deserialize: magic, then ping_id ('q') at off+4.  (The source
    assigns the unpack_from result without unpacking the 1-tuple, so ping_id
    is stored as a tuple; the contained integer is modelled here.) -/
def TLPing.deserialize (b : List Nat) (off : Nat) : Except Err Int := do
  let _ ← checkMagic TLPing.MAGIC b off
  readI64 b (off + 4)

/-- TLPing.serialize: pack('Iq', MAGIC, ping_id); 4 pad bytes after the magic. -/
def TLPing.serialize (ping_id : Int) : Except Err (List Nat) := do
  let pb ← packI64 ping_id
  pure (u32enc TLPing.MAGIC ++ qpad ++ pb)

def TLPingDelayDisconnect.MAGIC : Nat := 0xf3427b8c

/-- TLPingDelayDisconnect.deserialize: magic, unpack_from('qi') at off+4. -/
def TLPingDelayDisconnect.deserialize (b : List Nat) (off : Nat) :
    Except Err (Int × Int) := do
  let _ ← checkMagic TLPingDelayDisconnect.MAGIC b off
  let ping_id ← readI64 b (off + 4)
  let delay ← readI32 b (off + 12)
  pure (ping_id, delay)

/-- TLPingDelayDisconnect.serialize: pack('Iqi', MAGIC, ping_id, delay). -/
def TLPingDelayDisconnect.serialize (ping_id disconnect_delay : Int) :
    Except Err (List Nat) := do
  let pb ← packI64 ping_id
  let db ← packI32 disconnect_delay
  pure (u32enc TLPingDelayDisconnect.MAGIC ++ qpad ++ pb ++ db)

def TLDestroySession.MAGIC : Nat := 0xe7512126

/-- TLDestroySession.deserialize: magic, then session_id ('q') at off+4. -/
def TLDestroySession.deserialize (b : List Nat) (off : Nat) : Except Err Int := do
  let _ ← checkMagic TLDestroySession.MAGIC b off
  readI64 b (off + 4)

/-- TLDestroySession.serialize: pack('Iq', MAGIC, session_id). -/
def TLDestroySession.serialize (session_id : Int) : Except Err (List Nat) := do
  let sb ← packI64 session_id
  pure (u32enc TLDestroySession.MAGIC ++ qpad ++ sb)

def TLGzipPacked.MAGIC : Nat := 0x3072cfa1

/-- TLGzipPacked.deserialize: magic, then packed_data (byte array) at off+4. -/
def TLGzipPacked.deserialize (b : List Nat) (off : Nat) : Except Err (List Nat) := do
  let _ ← checkMagic TLGzipPacked.MAGIC b off
  MTByteArray.deserialize b (off + 4)

/-- TLGzipPacked.serialize: pack('I%ds' % len(packed), MAGIC, packed). -/
def TLGzipPacked.serialize (packed_data : List Nat) : Except Err (List Nat) := do
  let pb ← MTByteArray.serialize packed_data
  pure (u32enc TLGzipPacked.MAGIC ++ pb)

def TLError.MAGIC : Nat := 0xc4b9f9bb

/-- TLError.deserialize: magic, code ('i') at off+4, text at off+8. -/
def TLError.deserialize (b : List Nat) (off : Nat) :
    Except Err (Int × List Nat) := do
  let _ ← checkMagic TLError.MAGIC b off
  let code ← readI32 b (off + 4)
  let text ← MTByteArray.deserialize b (off + 8)
  pure (code, text)

/-- TLError.serialize: pack('Ii%ds' % len(text_b), MAGIC, code, text_b). -/
def TLError.serialize (code : Int) (text : List Nat) : Except Err (List Nat) := do
  let tb ← MTByteArray.serialize text
  let cb ← packI32 code
  pure (u32enc TLError.MAGIC ++ cb ++ tb)

def TLInvokeAfterMsg.MAGIC : Nat := 0xcb9f372d

def TLInvokeWithLayer.MAGIC : Nat := 0xda9b0d0d

def TLInitConnection.MAGIC : Nat := 0x69796de9

/-- A decoded tagged value: one constructor per TL class of scheme.py,
    carrying the fields its deserialize populates.  pyNone
    models the Python None that wrapper query fields hold initially (and
    that TLInvokeWithLayer.deserialize stores). -/
inductive TLObject where
  | pyNone
  | vector (values : List Int)
  | msgsAck (msg_ids : List Int)
  | msgContainer (messages : List TLMessageState)
  | message (s : TLMessageState)
  | msgResendReq (msg_ids : List Int)
  | rpcError (error_code : Int) (error_message : List Nat)
  | rpcReqError (query_id error_code : Int) (error_message : List Nat)
  | clientDHInnerData (nonce server_nonce : List Nat) (retry_id : Int) (g_b : List Nat)
  | serverDHInnerData (nonce server_nonce : List Nat) (g : Nat)
      (dh_prime g_a : List Nat) (server_time : Int)
  | reqPQ (nonce : List Nat)
  | reqDHParams (nonce server_nonce p q : List Nat)
      (public_key_fingerprint : Int) (encrypted_data : List Nat)
  | setClientDHParams (nonce server_nonce encrypted_data : List Nat)
  | rpcDropAnswer (req_msg_id : Int)
  | getFutureSalts (num : Int)
  | ping (ping_id : Int)
  | pingDelayDisconnect (ping_id disconnect_delay : Int)
  | destroySession (session_id : Int)
  | gzipPacked (packed_data : List Nat)
  | tlError (code : Int) (text : List Nat)
  | invokeAfterMsg (msg_id : Int) (query : TLObject)
  | invokeWithLayer (layer : Int) (query : TLObject)
  | initConnection (api_id : Int)
      (device_model system_version app_version lang_code : List Nat)
      (query : TLObject)
deriving DecidableEq

/-- The MAGIC of the class a decoded value is an instance of (pyNone, the
    model of Python None, is no registered type; no registered magic is 0). -/
def TLObject.magic : TLObject → Nat
  | .pyNone => 0
  | .vector _ => TLVector.MAGIC
  | .msgsAck _ => TLMsgsAck.MAGIC
  | .msgContainer _ => TLMsgContainer.MAGIC
  | .message _ => TLMessage.MAGIC
  | .msgResendReq _ => TLMsgResendReq.MAGIC
  | .rpcError _ _ => TLRpcError.MAGIC
  | .rpcReqError _ _ _ => TLRpcReqError.MAGIC
  | .clientDHInnerData _ _ _ _ => TLClientDHInnerData.MAGIC
  | .serverDHInnerData _ _ _ _ _ _ => TLServerDHInnerData.MAGIC
  | .reqPQ _ => TLReqPQ.MAGIC
  | .reqDHParams _ _ _ _ _ _ => TLReqDHParams.MAGIC
  | .setClientDHParams _ _ _ => TLSetClientDHParams.MAGIC
  | .rpcDropAnswer _ => TLRpcDropAnswer.MAGIC
  | .getFutureSalts _ => TLGetFutureSalts.MAGIC
  | .ping _ => TLPing.MAGIC
  | .pingDelayDisconnect _ _ => TLPingDelayDisconnect.MAGIC
  | .destroySession _ => TLDestroySession.MAGIC
  | .gzipPacked _ => TLGzipPacked.MAGIC
  | .tlError _ _ => TLError.MAGIC
  | .invokeAfterMsg _ _ => TLInvokeAfterMsg.MAGIC
  | .invokeWithLayer _ _ => TLInvokeWithLayer.MAGIC
  | .initConnection _ _ _ _ _ _ => TLInitConnection.MAGIC

/-- TLClientDHInnerData.deserialize: after the magic check the source raises
    NotImplementedError unconditionally; no value is ever produced. -/
def TLClientDHInnerData.deserialize (b : List Nat) (off : Nat) :
    Except Err TLObject := do
  let _ ← checkMagic TLClientDHInnerData.MAGIC b off
  .error .notImplemented

/-- TLInvokeWithLayer.deserialize: magic, layer ('i') at off+4, then
    self.query = self.deserialize(buffer, offset + 8) — the source recurses
    into its OWN deserialize instead of the registry dispatch, so the chain
    only continues while every 8 bytes start another invoke-with-layer magic;
    it has no base case and always ends in an exception.  Each recursive call
    overwrites self.layer, and the method returns None, so query ends as
    None; the (unreachable) normal return models that final state. -/
def TLInvokeWithLayer.deserialize : Nat → List Nat → Nat → Except Err TLObject
  | 0, _, _ => .error .outOfFuel
  | fuel + 1, b, off => do
    let _ ← checkMagic TLInvokeWithLayer.MAGIC b off
    let _layer ← readI32 b (off + 4)
    let inner ← TLInvokeWithLayer.deserialize fuel b (off + 8)
    pure inner

/-- TLInvokeAfterMsg.deserialize, parametrised by the module-level registry
    dispatch it calls: magic, msg_id ('q') at off+4, then
    self.query = deserialize(buffer, offset + 8) — the source dispatches at
    off+8 although the fixed header (magic + q) occupies 12 bytes, so the
    query is decoded 4 bytes early, overlapping msg_id. -/
def TLInvokeAfterMsg.deserializeWith
    (recur : List Nat → Nat → Except Err TLObject) (b : List Nat) (off : Nat) :
    Except Err TLObject := do
  let _ ← checkMagic TLInvokeAfterMsg.MAGIC b off
  let msg_id ← readI64 b (off + 4)
  let query ← recur b (off + 8)
  pure (.invokeAfterMsg msg_id query)

/-- TLInitConnection.deserialize, parametrised by the registry dispatch:
    magic, api_id ('i'), four byte arrays, then the recursively decoded query.
    The class is defined but never registered (no __add_object call follows
    it), so the registry never invokes this method. -/
def TLInitConnection.deserializeWith
    (recur : List Nat → Nat → Except Err TLObject) (b : List Nat) (off : Nat) :
    Except Err TLObject := do
  let _ ← checkMagic TLInitConnection.MAGIC b off
  let api_id ← readI32 b (off + 4)
  let device_model ← MTByteArray.deserialize b (off + 8)
  let o1 := off + 8 + MTByteArray.serialized_size device_model
  let system_version ← MTByteArray.deserialize b o1
  let o2 := o1 + MTByteArray.serialized_size system_version
  let app_version ← MTByteArray.deserialize b o2
  let o3 := o2 + MTByteArray.serialized_size app_version
  let lang_code ← MTByteArray.deserialize b o3
  let o4 := o3 + MTByteArray.serialized_size lang_code
  let query ← recur b o4
  pure (.initConnection api_id device_model system_version app_version
        lang_code query)

/-- The magic numbers registered through __add_object, in registration order:
    21 entries.  TLInitConnection is defined but never registered — the module
    ends after its class body with no __add_object(TLInitConnection) call —
    so its magic 0x69796de9 takes the unknown-type path at dispatch. -/
def registeredMagics : List Nat :=
  [TLVector.MAGIC, TLMsgsAck.MAGIC, TLMsgContainer.MAGIC, TLMessage.MAGIC,
   TLMsgResendReq.MAGIC, TLRpcError.MAGIC, TLRpcReqError.MAGIC,
   TLClientDHInnerData.MAGIC, TLServerDHInnerData.MAGIC, TLReqPQ.MAGIC,
   TLReqDHParams.MAGIC, TLSetClientDHParams.MAGIC, TLRpcDropAnswer.MAGIC,
   TLGetFutureSalts.MAGIC, TLPing.MAGIC, TLPingDelayDisconnect.MAGIC,
   TLDestroySession.MAGIC, TLGzipPacked.MAGIC, TLError.MAGIC,
   TLInvokeAfterMsg.MAGIC, TLInvokeWithLayer.MAGIC]

/-- The module-level deserialize(buffer, offset): read the magic ('I') at
    offset, look it up among the registered types and run that type's
    deserialize at the same offset (the constructor call cls(buffer, offset));
    raise NotImplementedError(hex(magic)) when no type is registered for it
    (TLInitConnection is never registered, so its magic ends up here too).
    The fuel argument bounds the recursion the wrapper types introduce; it
    only decreases across their nested decode calls. -/
def deserializeDispatch : Nat → List Nat → Nat → Except Err TLObject
  | 0, _, _ => .error .outOfFuel
  | fuel + 1, b, off => do
    let magic ← readU32 b off
    if magic = TLVector.MAGIC then (TLVector.deserialize b off).map .vector
    else if magic = TLMsgsAck.MAGIC then (TLMsgsAck.deserialize b off).map .msgsAck
    else if magic = TLMsgContainer.MAGIC then
      match TLMsgContainer.deserialize b off [] with
      | (msgs, none) => .ok (.msgContainer msgs)
      | (_, some e) => .error e
    else if magic = TLMessage.MAGIC then (TLMessage.deserialize b off).map .message
    else if magic = TLMsgResendReq.MAGIC then
      (TLMsgResendReq.deserialize b off).map .msgResendReq
    else if magic = TLRpcError.MAGIC then
      (TLRpcError.deserialize b off).map (fun p => .rpcError p.1 p.2)
    else if magic = TLRpcReqError.MAGIC then
      (TLRpcReqError.deserialize b off).map (fun p => .rpcReqError p.1 p.2.1 p.2.2)
    else if magic = TLClientDHInnerData.MAGIC then
      TLClientDHInnerData.deserialize b off
    else if magic = TLServerDHInnerData.MAGIC then
      (TLServerDHInnerData.deserialize b off).map
        (fun p => .serverDHInnerData p.1 p.2.1 p.2.2.1 p.2.2.2.1 p.2.2.2.2.1 p.2.2.2.2.2)
    else if magic = TLReqPQ.MAGIC then (TLReqPQ.deserialize b off).map .reqPQ
    else if magic = TLReqDHParams.MAGIC then
      (TLReqDHParams.deserialize b off).map
        (fun p => .reqDHParams p.1 p.2.1 p.2.2.1 p.2.2.2.1 p.2.2.2.2.1 p.2.2.2.2.2)
    else if magic = TLSetClientDHParams.MAGIC then
      (TLSetClientDHParams.deserialize b off).map
        (fun p => .setClientDHParams p.1 p.2.1 p.2.2)
    else if magic = TLRpcDropAnswer.MAGIC then
      (TLRpcDropAnswer.deserialize b off).map .rpcDropAnswer
    else if magic = TLGetFutureSalts.MAGIC then
      (TLGetFutureSalts.deserialize b off).map .getFutureSalts
    else if magic = TLPing.MAGIC then (TLPing.deserialize b off).map .ping
    else if magic = TLPingDelayDisconnect.MAGIC then
      (TLPingDelayDisconnect.deserialize b off).map
        (fun p => .pingDelayDisconnect p.1 p.2)
    else if magic = TLDestroySession.MAGIC then
      (TLDestroySession.deserialize b off).map .destroySession
    else if magic = TLGzipPacked.MAGIC then
      (TLGzipPacked.deserialize b off).map .gzipPacked
    else if magic = TLError.MAGIC then
      (TLError.deserialize b off).map (fun p => .tlError p.1 p.2)
    else if magic = TLInvokeAfterMsg.MAGIC then
      TLInvokeAfterMsg.deserializeWith (deserializeDispatch fuel) b off
    else if magic = TLInvokeWithLayer.MAGIC then
      TLInvokeWithLayer.deserialize fuel b off
    else .error (.unknownType magic)

/-- serialize() of any tagged value, dispatching on its class.
    The wrapper cases reflect two source defects:
    TLInvokeAfterMsg.serialize computes query_b and a format with three
    fields but passes pack only MAGIC and msg_id (struct.error), and
    TLInitConnection.serialize passes api_id for the leading 'I' slot,
    omitting MAGIC, so its seven-field format gets six values (struct.error).
    Serializing Python None (pyNone) raises AttributeError. -/
def TLObject.serialize : TLObject → Except Err (List Nat)
  | .pyNone => .error .attributeError
  | .vector vs => TLVector.serialize vs
  | .msgsAck ids => TLMsgsAck.serialize ids
  | .msgContainer msgs => TLMsgContainer.serialize msgs
  | .message m => TLMessage.serialize m
  | .msgResendReq ids => TLMsgResendReq.serialize ids
  | .rpcError code msg => TLRpcError.serialize code msg
  | .rpcReqError qid code msg => TLRpcReqError.serialize qid code msg
  | .clientDHInnerData nonce snonce retry_id g_b => do
    -- pack('I%ds%dsq%ds', MAGIC, nonce, server_nonce, retry_id, gb_b):
    -- the q field is 8-aligned after the two raw byte strings
    let gbb ← MTByteArray.serialize g_b
    let rb ← packI64 retry_id
    pure (u32enc TLClientDHInnerData.MAGIC ++ nonce ++ snonce ++
          alignPad (4 + nonce.length + snonce.length) 8 ++ rb ++ gbb)
  | .serverDHInnerData nonce snonce g dh_prime g_a server_time => do
    -- pack('I%ds%dsI%ds%dsi', ...): the inner I and the final i are 4-aligned
    let dhb ← MTByteArray.serialize dh_prime
    let gab ← MTByteArray.serialize g_a
    let gb ← packU32 g
    let stb ← packI32 server_time
    let p1 := alignPad (4 + nonce.length + snonce.length) 4
    let cur := 4 + nonce.length + snonce.length + p1.length + 4 +
               dhb.length + gab.length
    pure (u32enc TLServerDHInnerData.MAGIC ++ nonce ++ snonce ++ p1 ++ gb ++
          dhb ++ gab ++ alignPad cur 4 ++ stb)
  | .reqPQ nonce =>
    -- pack('I%ds' % len(nonce), MAGIC, nonce)
    .ok (u32enc TLReqPQ.MAGIC ++ nonce)
  | .reqDHParams nonce snonce p q fingerprint encrypted_data => do
    -- pack('I16s16s%ds%dsq%ds', ...): 16s pads or truncates each nonce
    let pb ← MTByteArray.serialize p
    let qb ← MTByteArray.serialize q
    let eb ← MTByteArray.serialize encrypted_data
    let fb ← packI64 fingerprint
    let cur := 4 + 16 + 16 + pb.length + qb.length
    pure (u32enc TLReqDHParams.MAGIC ++ padTrunc nonce 16 ++
          padTrunc snonce 16 ++ pb ++ qb ++ alignPad cur 8 ++ fb ++ eb)
  | .setClientDHParams nonce snonce encrypted_data => do
    -- pack('I16s16s%ds', ...)
    let eb ← MTByteArray.serialize encrypted_data
    pure (u32enc TLSetClientDHParams.MAGIC ++ padTrunc nonce 16 ++
          padTrunc snonce 16 ++ eb)
  | .rpcDropAnswer req_msg_id => TLRpcDropAnswer.serialize req_msg_id
  | .getFutureSalts num => TLGetFutureSalts.serialize num
  | .ping ping_id => TLPing.serialize ping_id
  | .pingDelayDisconnect ping_id delay => TLPingDelayDisconnect.serialize ping_id delay
  | .destroySession session_id => TLDestroySession.serialize session_id
  | .gzipPacked packed => TLGzipPacked.serialize packed
  | .tlError code text => TLError.serialize code text
  | .invokeAfterMsg _msg_id query => do
    -- query_b = self.query.serialize();
    -- pack('Iq%ds' % len(query_b), MAGIC, msg_id): 3 fields, 2 values
    let _qb ← query.serialize
    .error .packError
  | .invokeWithLayer layer query => do
    -- pack('Ii%ds' % len(query_b), MAGIC, layer, query_b)
    let qb ← query.serialize
    let lb ← packI32 layer
    pure (u32enc TLInvokeWithLayer.MAGIC ++ lb ++ qb)
  | .initConnection _api_id device_model system_version app_version lang_code query => do
    let _dm ← MTByteArray.serialize device_model
    let _sv ← MTByteArray.serialize system_version
    let _av ← MTByteArray.serialize app_version
    let _lc ← MTByteArray.serialize lang_code
    let _qb ← query.serialize
    .error .packError

theorem okBind {α β : Type} (a : α) (f : α → Except Err β) :
    (Except.ok a >>= f) = f a := rfl

theorem exceptBindOk {α β : Type} {e : Except Err α} {f : α → Except Err β}
    {v : β} (h : (e >>= f) = .ok v) : ∃ a, e = .ok a ∧ f a = .ok v := by
  cases e with
  | error err => simp [Bind.bind, Except.bind] at h
  | ok a => exact ⟨a, rfl, by simpa [Bind.bind, Except.bind] using h⟩

theorem exceptMapOk {α β : Type} {e : Except Err α} {g : α → β} {v : β}
    (h : e.map g = .ok v) : ∃ a, e = .ok a ∧ v = g a := by
  cases e with
  | error err => simp [Except.map] at h
  | ok a => exact ⟨a, rfl, by simpa [Except.map] using h.symm⟩

theorem readU32_of_le {b : List Nat} {off : Nat} (h : off + 4 ≤ b.length) :
    readU32 b off = .ok (readU32val b off) := by
  simp [readU32, h]

/-- C1: the claim says TLMessage.deserialize(buffer, offset) stores as body
    the declaredLength bytes at buffer[offset+20 : offset+20+declaredLength]
    and that serialized_size is 20 + declaredLength.  On a buffer holding a
    well-formed envelope (msg_id 7, segno 8, declared length 1, body byte
    171) at offset 4, the code instead slices the body at the absolute
    positions 20..21 of the buffer — yielding [1], the first byte of the
    length field, not [171] = buffer[24:25] — and serialized_size for a
    declared length of 1 is 25 = 24 + 1 (struct native alignment pads
    calcsize('Iqii%ds')), not 21. -/
theorem c1_message_decode_ignores_offset :
    TLMessage.deserialize
        ([9, 9, 9, 9] ++ u32enc TLMessage.MAGIC ++ i64enc 7 ++ i32enc 8 ++
          i32enc 1 ++ [171]) 4 =
      .ok { msg_id := 7, segno := 8, bytes := 1, body := [1] } ∧
    TLMessage.serialized_size 1 = .ok 25 ∧ ([1] : List Nat) ≠ [171] :=
  ⟨rfl, rfl, by decide⟩

/-- The three envelopes of claim C2: declared lengths 0, 5 and 37, bodies of
    exactly those lengths. -/
def c2msgs : List TLMessageState :=
  [{ msg_id := 1, segno := 2, bytes := 0, body := [] },
   { msg_id := 3, segno := 4, bytes := 5, body := [10, 11, 12, 13, 14] },
   { msg_id := 5, segno := 6, bytes := 37,
     body := [1, 2, 3, 4, 5, 6, 7, 8, 9, 10, 11, 12, 13, 14, 15, 16, 17, 18,
              19, 20, 21, 22, 23, 24, 25, 26, 27, 28, 29, 30, 31, 32, 33, 34,
              35, 36, 37] }]

set_option maxRecDepth 10000 in
/-- C2: the claim says a container of envelopes with declared lengths 0, 5
    and 37 round-trips to an identical buffer and re-decodes to the three
    original envelopes.  Serializing such a container succeeds, but
    deserializing the result into a fresh container mis-decodes the first
    envelope (msg_id 2^32 instead of 1, declared length 2 instead of 0,
    body [0,0] — the pad bytes serialize inserted shift every field) and
    then fails with IncorrectMagicNumberError when the mis-advanced cursor
    lands inside the first envelope's magic. -/
theorem c2_container_roundtrip_fails :
    (TLMsgContainer.serialize c2msgs).map
        (fun b => TLMsgContainer.deserialize b 0 []) =
      .ok ([{ msg_id := 4294967296, segno := 0, bytes := 2, body := [0, 0] }],
           some .incorrectMagic) := rfl

/-- C3: the claim says decoding any valid encoded buffer truncated by its
    last byte fails with a truncation error and never succeeds with wrong
    data.  For the envelope type this fails: serializing the message
    (msg_id 7, segno 2, declared length 1, body [171]) and dropping the last
    byte of the 25-byte output yields a buffer TLMessage.deserialize happily
    accepts, returning wrong data (msg_id 7*2^32, declared length 2, body
    [1,0]) instead of any error — buffer[20:20+bytes] silently clamps. -/
theorem c3_truncated_envelope_decode_succeeds :
    (TLMessage.serialize { msg_id := 7, segno := 2, bytes := 1, body := [171] }).map
        (fun s => TLMessage.deserialize s.dropLast 0) =
      .ok (.ok { msg_id := 30064771072, segno := 0, bytes := 2, body := [1, 0] }) :=
  rfl

/-- C4 counterexample: the claim says TLMessage.serialize fails with an
    InconsistentLengthError whenever the stored body length differs from the
    stored declared-length field.  For the message with bytes = 3 and a
    1-byte body [9], serialize succeeds and silently zero-pads the body to
    [9, 0, 0] (bytes 24..26 of the output); no length check exists in the
    code. -/
theorem c4_serialize_ignores_length_mismatch :
    TLMessage.serialize { msg_id := 1, segno := 2, bytes := 3, body := [9] } =
      .ok [17, 229, 184, 91, 0, 0, 0, 0, 1, 0, 0, 0, 0, 0, 0, 0,
           2, 0, 0, 0, 3, 0, 0, 0, 9, 0, 0] ∧
    ([9] : List Nat).length ≠ (3 : Int).toNat := ⟨rfl, by decide⟩

/-- C6: the claim says a recursive wrapper holding a Ping query round-trips
    (decode after encode reproduces the bytes and resolves the embedded
    Ping).  Encoding invoke-with-layer(layer 1, ping 7) succeeds, but
    decoding the result fails with IncorrectMagicNumberError: the source
    recurses into its own deserialize at offset 8, where it meets Ping's
    magic 0x7abe77ec instead of 0xda9b0d0d.  The other wrapper,
    invoke-after-message, cannot even encode: its pack call supplies two
    values for a three-field format and raises struct.error. -/
theorem c6_wrapper_ping_roundtrip_fails :
    (TLObject.serialize (.invokeWithLayer 1 (.ping 7))).map
        (fun s => TLInvokeWithLayer.deserialize 100 s 0) =
      .ok (.error .incorrectMagic) ∧
    TLObject.serialize (.invokeAfterMsg 5 (.ping 7)) = .error .packError :=
  ⟨rfl, rfl⟩

/-- C7: the claim says every implemented control/error/handshake record
    round-trips field-for-field.  The drop-answer record does not:
    serializing req_msg_id 1 yields pack('Iq') output with 4 pad bytes after
    the magic, and deserialize reads the q field at offset 4 — straddling
    the padding — returning 2^32 instead of 1. -/
theorem c7_drop_answer_roundtrip_mismatch :
    (TLRpcDropAnswer.serialize 1).map
        (fun s => TLRpcDropAnswer.deserialize s 0) = .ok (.ok 4294967296) ∧
    (4294967296 : Int) ≠ 1 := ⟨rfl, by decide⟩

/-- C9: on any buffer whose 4 bytes at the given offset hold the client-DH
    inner data magic, TLClientDHInnerData.deserialize raises the bare
    NotImplementedError the source leaves in place of a decoder; it never
    produces field data. -/
theorem c9_client_dh_decode_unsupported (b : List Nat) (off : Nat)
    (h : off + 4 ≤ b.length)
    (hm : readU32val b off = TLClientDHInnerData.MAGIC) :
    TLClientDHInnerData.deserialize b off = .error .notImplemented := by
  simp [TLClientDHInnerData.deserialize, checkMagic, readU32, h, hm, okBind]

theorem c9_client_dh_decode_unsupported_witness :
    ((0 + 4 ≤ (u32enc TLClientDHInnerData.MAGIC).length) ∧
      readU32val (u32enc TLClientDHInnerData.MAGIC) 0 = TLClientDHInnerData.MAGIC) ∧
    TLClientDHInnerData.deserialize (u32enc TLClientDHInnerData.MAGIC) 0 =
      .error .notImplemented :=
  ⟨⟨by decide, by decide⟩,
   c9_client_dh_decode_unsupported (u32enc TLClientDHInnerData.MAGIC) 0
     (by decide) (by decide)⟩

theorem clientDH_deserialize_never_ok (b : List Nat) (off : Nat) (v : TLObject)
    (h : TLClientDHInnerData.deserialize b off = .ok v) : False := by
  simp only [TLClientDHInnerData.deserialize] at h
  obtain ⟨a, _, hf⟩ := exceptBindOk h
  simp at hf

theorem invokeWithLayer_deserialize_shape (fuel : Nat) :
    ∀ (b : List Nat) (off : Nat) (v : TLObject),
      TLInvokeWithLayer.deserialize fuel b off = .ok v →
      ∃ l q, v = .invokeWithLayer l q := by
  induction fuel with
  | zero => intro b off v h; simp [TLInvokeWithLayer.deserialize] at h
  | succ n ih =>
    intro b off v h
    simp only [TLInvokeWithLayer.deserialize] at h
    obtain ⟨_, _, h⟩ := exceptBindOk h
    obtain ⟨_, _, h⟩ := exceptBindOk h
    obtain ⟨inner, hin, h⟩ := exceptBindOk h
    obtain ⟨l, q, rfl⟩ := ih b (off + 8) inner hin
    exact ⟨l, q, by simpa [Pure.pure, Except.pure] using h.symm⟩

theorem invokeAfterMsg_deserializeWith_shape
    (recur : List Nat → Nat → Except Err TLObject) (b : List Nat) (off : Nat)
    (v : TLObject) (h : TLInvokeAfterMsg.deserializeWith recur b off = .ok v) :
    ∃ i q, v = .invokeAfterMsg i q := by
  simp only [TLInvokeAfterMsg.deserializeWith] at h
  obtain ⟨_, _, h⟩ := exceptBindOk h
  obtain ⟨i, _, h⟩ := exceptBindOk h
  obtain ⟨q, _, h⟩ := exceptBindOk h
  exact ⟨i, q, by simpa [Pure.pure, Except.pure] using h.symm⟩


set_option maxHeartbeats 3200000 in
/-- C5: the registry entry point reads the 4-byte little-endian magic at
    offset and (first conjunct) fails with NotImplementedError carrying that
    magic when no type is registered for it; (second conjunct) any value it
    returns is an instance of the type registered for exactly that magic —
    the decoder is invoked at the same offset, so its own magic check sees
    the dispatched magic. -/
theorem c5_registry_dispatch (fuel : Nat) (b : List Nat) (off : Nat)
    (h : off + 4 ≤ b.length) :
    (readU32val b off ∉ registeredMagics →
      deserializeDispatch (fuel + 1) b off =
        .error (.unknownType (readU32val b off))) ∧
    (∀ v, deserializeDispatch (fuel + 1) b off = .ok v →
      v.magic = readU32val b off) := by
  have hr : readU32 b off = .ok (readU32val b off) := readU32_of_le h
  constructor
  · intro hnot
    simp only [registeredMagics, List.mem_cons, List.not_mem_nil, or_false,
      not_or] at hnot
    obtain ⟨n1, n2, n3, n4, n5, n6, n7, n8, n9, n10, n11, n12, n13, n14, n15,
      n16, n17, n18, n19, n20, n21⟩ := hnot
    simp only [deserializeDispatch, hr, okBind]
    rw [if_neg n1, if_neg n2, if_neg n3, if_neg n4, if_neg n5, if_neg n6,
      if_neg n7, if_neg n8, if_neg n9, if_neg n10, if_neg n11, if_neg n12,
      if_neg n13, if_neg n14, if_neg n15, if_neg n16, if_neg n17, if_neg n18,
      if_neg n19, if_neg n20, if_neg n21]
  · intro v hv
    simp only [deserializeDispatch, hr, okBind] at hv
    by_cases h1 : readU32val b off = TLVector.MAGIC
    · rw [if_pos h1] at hv
      obtain ⟨a, _, rfl⟩ := exceptMapOk hv
      simp [TLObject.magic, h1]
    rw [if_neg h1] at hv
    by_cases h2 : readU32val b off = TLMsgsAck.MAGIC
    · rw [if_pos h2] at hv
      obtain ⟨a, _, rfl⟩ := exceptMapOk hv
      simp [TLObject.magic, h2]
    rw [if_neg h2] at hv
    by_cases h3 : readU32val b off = TLMsgContainer.MAGIC
    · rw [if_pos h3] at hv
      rcases hcd : TLMsgContainer.deserialize b off [] with ⟨msgs, oe⟩
      rw [hcd] at hv
      cases oe with
      | none =>
        obtain rfl : TLObject.msgContainer msgs = v := by simpa using hv
        simp [TLObject.magic, h3]
      | some e => simp at hv
    rw [if_neg h3] at hv
    by_cases h4 : readU32val b off = TLMessage.MAGIC
    · rw [if_pos h4] at hv
      obtain ⟨a, _, rfl⟩ := exceptMapOk hv
      simp [TLObject.magic, h4]
    rw [if_neg h4] at hv
    by_cases h5 : readU32val b off = TLMsgResendReq.MAGIC
    · rw [if_pos h5] at hv
      obtain ⟨a, _, rfl⟩ := exceptMapOk hv
      simp [TLObject.magic, h5]
    rw [if_neg h5] at hv
    by_cases h6 : readU32val b off = TLRpcError.MAGIC
    · rw [if_pos h6] at hv
      obtain ⟨a, _, rfl⟩ := exceptMapOk hv
      simp [TLObject.magic, h6]
    rw [if_neg h6] at hv
    by_cases h7 : readU32val b off = TLRpcReqError.MAGIC
    · rw [if_pos h7] at hv
      obtain ⟨a, _, rfl⟩ := exceptMapOk hv
      simp [TLObject.magic, h7]
    rw [if_neg h7] at hv
    by_cases h8 : readU32val b off = TLClientDHInnerData.MAGIC
    · rw [if_pos h8] at hv
      exact (clientDH_deserialize_never_ok b off v hv).elim
    rw [if_neg h8] at hv
    by_cases h9 : readU32val b off = TLServerDHInnerData.MAGIC
    · rw [if_pos h9] at hv
      obtain ⟨a, _, rfl⟩ := exceptMapOk hv
      simp [TLObject.magic, h9]
    rw [if_neg h9] at hv
    by_cases h10 : readU32val b off = TLReqPQ.MAGIC
    · rw [if_pos h10] at hv
      obtain ⟨a, _, rfl⟩ := exceptMapOk hv
      simp [TLObject.magic, h10]
    rw [if_neg h10] at hv
    by_cases h11 : readU32val b off = TLReqDHParams.MAGIC
    · rw [if_pos h11] at hv
      obtain ⟨a, _, rfl⟩ := exceptMapOk hv
      simp [TLObject.magic, h11]
    rw [if_neg h11] at hv
    by_cases h12 : readU32val b off = TLSetClientDHParams.MAGIC
    · rw [if_pos h12] at hv
      obtain ⟨a, _, rfl⟩ := exceptMapOk hv
      simp [TLObject.magic, h12]
    rw [if_neg h12] at hv
    by_cases h13 : readU32val b off = TLRpcDropAnswer.MAGIC
    · rw [if_pos h13] at hv
      obtain ⟨a, _, rfl⟩ := exceptMapOk hv
      simp [TLObject.magic, h13]
    rw [if_neg h13] at hv
    by_cases h14 : readU32val b off = TLGetFutureSalts.MAGIC
    · rw [if_pos h14] at hv
      obtain ⟨a, _, rfl⟩ := exceptMapOk hv
      simp [TLObject.magic, h14]
    rw [if_neg h14] at hv
    by_cases h15 : readU32val b off = TLPing.MAGIC
    · rw [if_pos h15] at hv
      obtain ⟨a, _, rfl⟩ := exceptMapOk hv
      simp [TLObject.magic, h15]
    rw [if_neg h15] at hv
    by_cases h16 : readU32val b off = TLPingDelayDisconnect.MAGIC
    · rw [if_pos h16] at hv
      obtain ⟨a, _, rfl⟩ := exceptMapOk hv
      simp [TLObject.magic, h16]
    rw [if_neg h16] at hv
    by_cases h17 : readU32val b off = TLDestroySession.MAGIC
    · rw [if_pos h17] at hv
      obtain ⟨a, _, rfl⟩ := exceptMapOk hv
      simp [TLObject.magic, h17]
    rw [if_neg h17] at hv
    by_cases h18 : readU32val b off = TLGzipPacked.MAGIC
    · rw [if_pos h18] at hv
      obtain ⟨a, _, rfl⟩ := exceptMapOk hv
      simp [TLObject.magic, h18]
    rw [if_neg h18] at hv
    by_cases h19 : readU32val b off = TLError.MAGIC
    · rw [if_pos h19] at hv
      obtain ⟨a, _, rfl⟩ := exceptMapOk hv
      simp [TLObject.magic, h19]
    rw [if_neg h19] at hv
    by_cases h20 : readU32val b off = TLInvokeAfterMsg.MAGIC
    · rw [if_pos h20] at hv
      obtain ⟨i, q, rfl⟩ :=
        invokeAfterMsg_deserializeWith_shape (deserializeDispatch fuel) b off v hv
      simp [TLObject.magic, h20]
    rw [if_neg h20] at hv
    by_cases h21 : readU32val b off = TLInvokeWithLayer.MAGIC
    · rw [if_pos h21] at hv
      obtain ⟨l, q, rfl⟩ := invokeWithLayer_deserialize_shape fuel b off v hv
      simp [TLObject.magic, h21]
    rw [if_neg h21] at hv
    simp at hv
theorem c5_registry_dispatch_witness :
    (0 + 4 ≤ ([1, 2, 3, 4] : List Nat).length) ∧
    deserializeDispatch 1 [1, 2, 3, 4] 0 = .error (.unknownType 67305985) :=
  ⟨by decide,
   (c5_registry_dispatch 0 [1, 2, 3, 4] 0 (by decide)).1 (by decide)⟩

theorem container_loop_append (b : List Nat) :
    ∀ (n off : Nat) (ms : List TLMessageState),
      TLMsgContainer.deserializeLoop b n off ms =
        (ms ++ (TLMsgContainer.deserializeLoop b n off []).1,
         (TLMsgContainer.deserializeLoop b n off []).2)
  | 0, off, ms => by simp [TLMsgContainer.deserializeLoop]
  | n + 1, off, ms => by
    rcases hm : TLMessage.deserialize b off with e | m
    · simp [TLMsgContainer.deserializeLoop, hm]
    · rcases hs : TLMessage.serialized_size m.bytes with e | sz
      · simp [TLMsgContainer.deserializeLoop, hm, hs]
      · simp only [TLMsgContainer.deserializeLoop, hm, hs, List.nil_append]
        rw [container_loop_append b n (off + sz) (ms ++ [m]),
            container_loop_append b n (off + sz) [m]]
        simp

theorem container_loop_count (b : List Nat) :
    ∀ (n off : Nat) (ds : List TLMessageState),
      TLMsgContainer.deserializeLoop b n off [] = (ds, none) → ds.length = n
  | 0, off, ds => by
    intro h
    simp [TLMsgContainer.deserializeLoop, Prod.mk.injEq] at h
    simp [h]
  | n + 1, off, ds => by
    intro h
    rcases hm : TLMessage.deserialize b off with e | m
    · simp [TLMsgContainer.deserializeLoop, hm] at h
    · rcases hs : TLMessage.serialized_size m.bytes with e | sz
      · simp [TLMsgContainer.deserializeLoop, hm, hs] at h
      · simp only [TLMsgContainer.deserializeLoop, hm, hs, List.nil_append] at h
        rw [container_loop_append b n (off + sz) [m]] at h
        rcases hloop : TLMsgContainer.deserializeLoop b n (off + sz) [] with ⟨tail, oe⟩
        rw [hloop] at h
        simp only [Prod.mk.injEq] at h
        have ht := container_loop_count b n (off + sz) tail (by rw [hloop, h.2])
        rw [← h.1]
        simp [ht]

/-- C10: TLMsgContainer.deserialize appends to self.messages rather than
    replacing it: when decoding the buffer into a fresh container yields the
    envelope list ds (with ds.length equal to the container's declared
    count), decoding the same buffer into a container already holding ms
    leaves it holding ms ++ ds — the prior messages kept, the decoded ones
    after them — so the fresh-decode result is obtained only on a freshly
    constructed container. -/
theorem c10_container_deserialize_appends (b : List Nat) (off : Nat)
    (ms ds : List TLMessageState) (n : Nat)
    (hfresh : TLMsgContainer.deserialize b off [] = (ds, none))
    (hcount : readU32 b (off + 4) = .ok n) :
    TLMsgContainer.deserialize b off ms = (ms ++ ds, none) ∧ ds.length = n ∧
      (ms ++ ds).length = ms.length + ds.length := by
  rcases hh : TLMsgContainer.readHeader b off with e | count
  · simp [TLMsgContainer.deserialize, hh] at hfresh
  · simp only [TLMsgContainer.deserialize, hh] at hfresh ⊢
    refine ⟨?_, ?_, by simp⟩
    · rw [container_loop_append b count (off + 8) ms, hfresh]
    · have hn : count = n := by
        simp only [TLMsgContainer.readHeader] at hh
        obtain ⟨u, _, hrw⟩ := exceptBindOk hh
        rw [hcount] at hrw
        exact (Except.ok.inj hrw).symm
      rw [← hn]
      exact container_loop_count b count (off + 8) ds hfresh

/-- A buffer holding one container with a single empty-body envelope, laid
    out the way TLMessage.deserialize reads it back. -/
def c10buf : List Nat :=
  u32enc TLMsgContainer.MAGIC ++ u32enc 1 ++ u32enc TLMessage.MAGIC ++
    i64enc 7 ++ i32enc 3 ++ i32enc 0

theorem c10_container_deserialize_appends_witness :
    (TLMsgContainer.deserialize c10buf 0 [] =
        ([{ msg_id := 7, segno := 3, bytes := 0, body := [] }], none) ∧
      readU32 c10buf 4 = .ok 1) ∧
    TLMsgContainer.deserialize c10buf 0
        [{ msg_id := 1, segno := 1, bytes := 0, body := [] }] =
      ([{ msg_id := 1, segno := 1, bytes := 0, body := [] },
        { msg_id := 7, segno := 3, bytes := 0, body := [] }], none) :=
  ⟨⟨rfl, rfl⟩,
   (c10_container_deserialize_appends c10buf 0
     [{ msg_id := 1, segno := 1, bytes := 0, body := [] }]
     [{ msg_id := 7, segno := 3, bytes := 0, body := [] }] 1 rfl rfl).1⟩

/-- C4 as amended: TLMessage.serialize performs no consistency check between
    the stored declared-length field and the stored body.  For any message
    state with a representable header (bytes non-negative and in i32 range,
    msg_id in q range, segno in i32 range) it succeeds, emits 24 + bytes
    bytes, and the section after the 24-byte header is the body silently
    truncated to bytes bytes, or zero-padded on the right up to bytes bytes —
    no InconsistentLengthError exists in the code. -/
theorem c4_serialize_pads_or_truncates (m : TLMessageState)
    (h0 : 0 ≤ m.bytes) (h1 : m.bytes < 2147483648)
    (h2 : -9223372036854775808 ≤ m.msg_id)
    (h3 : m.msg_id < 9223372036854775808)
    (h4 : -2147483648 ≤ m.segno) (h5 : m.segno < 2147483648) :
    ∃ out, TLMessage.serialize m = .ok out ∧
      out.length = 24 + m.bytes.toNat ∧
      out.drop 24 = m.body.take m.bytes.toNat ++
        List.replicate (m.bytes.toNat - m.body.length) 0 := by
  have hb : -2147483648 ≤ m.bytes := by omega
  have hnn : ¬ m.bytes < 0 := by omega
  refine ⟨u32enc TLMessage.MAGIC ++ qpad ++ i64enc m.msg_id ++ i32enc m.segno ++
    i32enc m.bytes ++ padTrunc m.body m.bytes.toNat, ?_, ?_, ?_⟩
  · simp [TLMessage.serialize, hnn, packI64, packI32, h1, h2, h3, h4, h5, hb,
      okBind]
  · simp [u32enc, qpad, i64enc, u64enc, i32enc, padTrunc]
    omega
  · simp [u32enc, qpad, i64enc, u64enc, i32enc, padTrunc]

theorem c4_serialize_pads_or_truncates_witness :
    ((0 : Int) ≤ 3 ∧ (3 : Int) < 2147483648) ∧
    ∃ out, TLMessage.serialize { msg_id := 1, segno := 2, bytes := 3, body := [9] } =
        .ok out ∧
      out.length = 24 + (3 : Int).toNat ∧
      out.drop 24 = [9].take (3 : Int).toNat ++
        List.replicate ((3 : Int).toNat - [9].length) 0 :=
  ⟨⟨by decide, by decide⟩,
   c4_serialize_pads_or_truncates { msg_id := 1, segno := 2, bytes := 3, body := [9] }
     (by decide) (by decide) (by decide) (by decide) (by decide) (by decide)⟩

theorem byteAt_append (xs ys : List Nat) (i : Nat) :
    byteAt (xs ++ ys) (xs.length + i) = byteAt ys i := by
  unfold byteAt
  rw [List.getD_append_right xs ys 0 (xs.length + i) (Nat.le_add_right _ _)]
  congr 1
  omega

theorem readU32val_append (pre suf : List Nat) (x : Nat) (hx : x < 4294967296) :
    readU32val (pre ++ (u32enc x ++ suf)) pre.length = x := by
  have h0 : byteAt (pre ++ (u32enc x ++ suf)) pre.length = x % 256 := by
    have := byteAt_append pre (u32enc x ++ suf) 0
    simpa [byteAt, u32enc] using this
  have h1 : byteAt (pre ++ (u32enc x ++ suf)) (pre.length + 1) = x / 256 % 256 := by
    have := byteAt_append pre (u32enc x ++ suf) 1
    simpa [byteAt, u32enc] using this
  have h2 : byteAt (pre ++ (u32enc x ++ suf)) (pre.length + 2) = x / 65536 % 256 := by
    have := byteAt_append pre (u32enc x ++ suf) 2
    simpa [byteAt, u32enc] using this
  have h3 : byteAt (pre ++ (u32enc x ++ suf)) (pre.length + 3) =
      x / 16777216 % 256 := by
    have := byteAt_append pre (u32enc x ++ suf) 3
    simpa [byteAt, u32enc] using this
  simp only [readU32val, h0, h1, h2, h3]
  omega

theorem readU32_ok_append (pre suf : List Nat) (x : Nat) (hx : x < 4294967296) :
    readU32 (pre ++ (u32enc x ++ suf)) pre.length = .ok x := by
  have hb : pre.length + 4 ≤ (pre ++ (u32enc x ++ suf)).length := by
    simp [u32enc]
  simp only [readU32, if_pos hb, readU32val_append pre suf x hx]

theorem readU64val_append (pre suf : List Nat) (x : Nat)
    (hx : x < 18446744073709551616) :
    readU64val (pre ++ (u64enc x ++ suf)) pre.length = x := by
  have h0 : byteAt (pre ++ (u64enc x ++ suf)) pre.length = x % 256 := by
    have := byteAt_append pre (u64enc x ++ suf) 0
    simpa [byteAt, u64enc] using this
  have h1 : byteAt (pre ++ (u64enc x ++ suf)) (pre.length + 1) = x / 256 % 256 := by
    have := byteAt_append pre (u64enc x ++ suf) 1
    simpa [byteAt, u64enc] using this
  have h2 : byteAt (pre ++ (u64enc x ++ suf)) (pre.length + 2) = x / 65536 % 256 := by
    have := byteAt_append pre (u64enc x ++ suf) 2
    simpa [byteAt, u64enc] using this
  have h3 : byteAt (pre ++ (u64enc x ++ suf)) (pre.length + 3) =
      x / 16777216 % 256 := by
    have := byteAt_append pre (u64enc x ++ suf) 3
    simpa [byteAt, u64enc] using this
  have h4 : byteAt (pre ++ (u64enc x ++ suf)) (pre.length + 4) =
      x / 4294967296 % 256 := by
    have := byteAt_append pre (u64enc x ++ suf) 4
    simpa [byteAt, u64enc] using this
  have h5 : byteAt (pre ++ (u64enc x ++ suf)) (pre.length + 5) =
      x / 1099511627776 % 256 := by
    have := byteAt_append pre (u64enc x ++ suf) 5
    simpa [byteAt, u64enc] using this
  have h6 : byteAt (pre ++ (u64enc x ++ suf)) (pre.length + 6) =
      x / 281474976710656 % 256 := by
    have := byteAt_append pre (u64enc x ++ suf) 6
    simpa [byteAt, u64enc] using this
  have h7 : byteAt (pre ++ (u64enc x ++ suf)) (pre.length + 7) =
      x / 72057594037927936 % 256 := by
    have := byteAt_append pre (u64enc x ++ suf) 7
    simpa [byteAt, u64enc] using this
  simp only [readU64val, h0, h1, h2, h3, h4, h5, h6, h7]
  omega

theorem readI64_ok_append (pre suf : List Nat) (v : Int)
    (hlo : -9223372036854775808 ≤ v) (hhi : v < 9223372036854775808) :
    readI64 (pre ++ (i64enc v ++ suf)) pre.length = .ok v := by
  have hmod : (0 : Int) ≤ v % 18446744073709551616 ∧
      v % 18446744073709551616 < 18446744073709551616 := by omega
  have hb : pre.length + 8 ≤ (pre ++ (i64enc v ++ suf)).length := by
    simp [i64enc, u64enc]
  have hval : readU64val (pre ++ (i64enc v ++ suf)) pre.length =
      (v % 18446744073709551616).toNat := by
    unfold i64enc
    exact readU64val_append pre suf (v % 18446744073709551616).toNat (by omega)
  simp only [readI64, if_pos hb, hval, toSigned64]
  split_ifs <;> (congr 1; omega)

theorem i64enc_length (v : Int) : (i64enc v).length = 8 := by
  simp [i64enc, u64enc]

theorem i64encs_length (vs : List Int) : (i64encs vs).length = 8 * vs.length := by
  induction vs with
  | nil => simp [i64encs]
  | cons v vs ih =>
    simp [i64encs, i64enc_length, ih]
    omega

theorem readI64s_append (vs : List Int) :
    ∀ (pre suf : List Nat),
      (∀ v ∈ vs, -9223372036854775808 ≤ v ∧ v < 9223372036854775808) →
      readI64s (pre ++ (i64encs vs ++ suf)) pre.length vs.length = .ok vs
  | pre, suf, h => by
    match vs with
    | [] => simp [readI64s, i64encs]
    | v :: tl =>
      have hv := h v (by simp)
      simp only [List.length_cons, readI64s, i64encs, List.append_assoc]
      rw [readI64_ok_append pre (i64encs tl ++ suf) v hv.1 hv.2, okBind]
      have e1 : pre ++ (i64enc v ++ (i64encs tl ++ suf)) =
          (pre ++ i64enc v) ++ (i64encs tl ++ suf) := by
        simp [List.append_assoc]
      have e2 : pre.length + 8 = (pre ++ i64enc v).length := by
        simp [i64enc_length]
      rw [e1, e2,
        readI64s_append tl (pre ++ i64enc v) suf (fun w hw => h w (by simp [hw])),
        okBind]

theorem packI64s_ok (vs : List Int)
    (h : ∀ v ∈ vs, -9223372036854775808 ≤ v ∧ v < 9223372036854775808) :
    packI64s vs = .ok (i64encs vs) := by
  induction vs with
  | nil => simp [packI64s, i64encs]
  | cons v tl ih =>
    have hv := h v (by simp)
    simp [packI64s, i64encs, packI64, hv.1, hv.2, okBind,
      ih (fun w hw => h w (by simp [hw]))]

/-- C8: for every count and every list of in-range 64-bit integers of that
    length, the scalar vector round-trips exactly — deserializing the
    serialization recovers the same values in the same order — and both the
    output length and serialized_size equal 8 + 8*count. -/
theorem c8_vector_roundtrip (values : List Int)
    (hlen : values.length < 4294967296)
    (hv : ∀ v ∈ values, -9223372036854775808 ≤ v ∧ v < 9223372036854775808) :
    ∃ out, TLVector.serialize values = .ok out ∧
      TLVector.deserialize out 0 = .ok values ∧
      out.length = 8 + 8 * values.length ∧
      TLVector.serialized_size values = 8 + 8 * values.length := by
  refine ⟨u32enc TLVector.MAGIC ++ u32enc values.length ++ i64encs values,
    ?_, ?_, ?_, rfl⟩
  · simp [TLVector.serialize, packU32, hlen, packI64s_ok values hv, okBind]
  · have h1 : readU32 (u32enc TLVector.MAGIC ++
        (u32enc values.length ++ i64encs values)) 0 = .ok TLVector.MAGIC := by
      have h := readU32_ok_append []
        (u32enc values.length ++ i64encs values) TLVector.MAGIC (by decide)
      rw [List.nil_append, List.length_nil] at h
      exact h
    have h2 : readU32 (u32enc TLVector.MAGIC ++
        (u32enc values.length ++ i64encs values)) 4 = .ok values.length := by
      have := readU32_ok_append (u32enc TLVector.MAGIC)
        (i64encs values) values.length hlen
      simpa [u32enc] using this
    have h3 : readI64s (u32enc TLVector.MAGIC ++
        (u32enc values.length ++ i64encs values)) 8 values.length =
        .ok values := by
      have := readI64s_append values
        (u32enc TLVector.MAGIC ++ u32enc values.length) [] hv
      simpa [u32enc, List.append_assoc] using this
    simp [TLVector.deserialize, checkMagic, h1, h2, h3, okBind]
  · simp [u32enc, i64encs_length]
    omega

theorem c8_vector_roundtrip_witness :
    (([5, -3] : List Int).length < 4294967296) ∧
    ∃ out, TLVector.serialize [5, -3] = .ok out ∧
      TLVector.deserialize out 0 = .ok [5, -3] ∧
      out.length = 8 + 8 * ([5, -3] : List Int).length ∧
      TLVector.serialized_size [5, -3] = 8 + 8 * ([5, -3] : List Int).length :=
  ⟨by decide, c8_vector_roundtrip [5, -3] (by decide) (by decide)⟩
